import Mathlib

/-!
Shallow embedding of the `dynp` crate: a type-indexed heterogeneous value
store (`src/src/property.rs` and `src/src/property_collection.rs`).

Modelling conventions:
* Rust value-types are an abstract tag universe `Ty` with decidable equality
  (`TypeId::of::<T>` is the identity on tags: the spec requires distinct
  nominal types to yield distinct identities, which Rust guarantees).
  `Val t` is the Lean type of values carried by the Rust type tagged `t`.
* `Box<dyn Any>` is a dependent pair `⟨tag, property⟩`; `downcast_ref` to
  `Property<T>` succeeds exactly when the stored tag equals the requested tag.
* Callbacks `Box<dyn FnMut(&T)>` are opaque effectful closures; the embedding
  names each registered callback by a `Nat` identifier and records an
  invocation event `(id, argument)` at each point where the source calls a
  callback.  The only such point is the loop in `Property::assign`
  (property.rs line 50-53), so `Property.assign` returns the event list of
  that loop and no other operation produces events.
* `HashMap<TypeId, Box<dyn Any>>` is a total function `Ty → Option (AnyProp
  Val)`; `insert` is pointwise update, `get` is application.
* `panic!` (the unexpected-error arms of `PropertyCollection::assign` and
  `PropertyCollection::subscribe`) is `Option.none`; normal completion is
  `some`.  A panic aborts before any mutation, so the op-level step function
  leaves the state unchanged in that case.
-/

namespace Dynp

/-- Mirror of `Property<T>` (property.rs lines 15-21): an optional value and
the ordered list of subscriber callbacks, each named by its identifier. -/
structure Property (α : Type) where
  value : Option α
  subscriptions : List Nat
deriving DecidableEq

namespace Property

variable {α : Type}

/-- Mirror of `Property::new` (property.rs lines 26-32). -/
def new (v : α) : Property α :=
  ⟨some v, []⟩

/-- Mirror of `Property::empty` (property.rs lines 34-39). -/
def empty : Property α :=
  ⟨none, []⟩

/-- Mirror of `Property::get` (property.rs lines 42-44). -/
def get (p : Property α) : Option α :=
  p.value

/-- Mirror of `Property::assign` (property.rs lines 46-54): stores the value, then
invokes every subscription in order, passing the just-stored value
(`self.value.as_ref().unwrap()`).  Returns the updated property together with
the list of callback invocations `(callback id, argument)` in call order.
The `none` arm mirrors the `unwrap` and is unreachable because the value was
just assigned. -/
def assign (p : Property α) (v : α) : Property α × List (Nat × α) :=
  let p2 : Property α := ⟨some v, p.subscriptions⟩
  match p2.value with
  | some w => (p2, p2.subscriptions.map fun cb => (cb, w))
  | none => (p2, [])

/-- Mirror of `Property::subscribe` (property.rs lines 66-68): push onto the vector. -/
def subscribe (p : Property α) (cb : Nat) : Property α :=
  ⟨p.value, p.subscriptions ++ [cb]⟩

end Property

/-- Mirror of `PropertyCollectionError` (property_collection.rs lines 9-15). -/
inductive PropertyCollectionError where
  | PropertyNotFound
  | PropertyTypeMismatch
deriving DecidableEq

/-- A `Box<dyn Any>` holding some `Property<T>`: the tag of the actual stored
type together with the property. -/
def AnyProp {Ty : Type} (Val : Ty → Type) : Type :=
  Σ t : Ty, Property (Val t)

/-- Mirror of `Box::downcast_ref::<Property<T>>`: succeeds exactly when the dynamic
type (the stored tag) is the requested one. -/
def AnyProp.downcast {Ty : Type} [DecidableEq Ty] {Val : Ty → Type}
    (b : AnyProp Val) (t : Ty) : Option (Property (Val t)) :=
  if h : b.1 = t then some (cast (congrArg (fun s => Property (Val s)) h) b.2)
  else none

/-- Mirror of `PropertyCollection` (property_collection.rs lines 18-21):
the `HashMap<TypeId, Box<dyn Any>>` as a total function to `Option`. -/
structure PropertyCollection (Ty : Type) (Val : Ty → Type) where
  properties : Ty → Option (AnyProp Val)

namespace PropertyCollection

variable {Ty : Type} [DecidableEq Ty] {Val : Ty → Type}

/-- Mirror of `PropertyCollection::new` (property_collection.rs lines 24-28). -/
def new (Ty : Type) (Val : Ty → Type) : PropertyCollection Ty Val :=
  ⟨fun _ => none⟩

/-- Mirror of `HashMap::insert` at a type identity. -/
def insert (c : PropertyCollection Ty Val) (t : Ty) (b : AnyProp Val) :
    PropertyCollection Ty Val :=
  ⟨fun k => if k = t then some b else c.properties k⟩

/-- Mirror of `PropertyCollection::get_property` (property_collection.rs lines 43-57):
look up the erased slot by type identity, then downcast. -/
def get_property (c : PropertyCollection Ty Val) (t : Ty) :
    Except PropertyCollectionError (Property (Val t)) :=
  match c.properties t with
  | some b =>
    match b.downcast t with
    | some p => .ok p
    | none => .error .PropertyTypeMismatch
  | none => .error .PropertyNotFound

/-- Mirror of `PropertyCollection::get_property_mut` (property_collection.rs lines
72-82): identical resolution logic to `get_property`; in the pure embedding
the mutable and shared lookups coincide. -/
def get_property_mut (c : PropertyCollection Ty Val) (t : Ty) :
    Except PropertyCollectionError (Property (Val t)) :=
  match c.properties t with
  | some b =>
    match b.downcast t with
    | some p => .ok p
    | none => .error .PropertyTypeMismatch
  | none => .error .PropertyNotFound

/-- Mirror of `PropertyCollection::get` (property_collection.rs lines 99-109). -/
def get (c : PropertyCollection Ty Val) (t : Ty) :
    Except PropertyCollectionError (Val t) :=
  match c.get_property t with
  | .ok p =>
    match p.get with
    | some v => .ok v
    | none => .error .PropertyNotFound
  | .error e => .error e

/-- Mirror of `PropertyCollection::assign` (property_collection.rs lines 121-145).
`assign<U, T>` takes any `U : ToOwned<Owned = T>`; the slot key and the
stored value are always of the owned target type `T`, so the embedding takes
the owned value `v : Val t` directly.  If resolution finds the slot, the
value is written in place (invoking subscribers); if it reports
`PropertyNotFound`, a fresh `Property::new` slot is inserted (no subscribers,
so no invocations); any other error panics (`none`).  Returns the updated
collection and the callback-invocation events of the call. -/
def assign (c : PropertyCollection Ty Val) (t : Ty) (v : Val t) :
    Option (PropertyCollection Ty Val × List (Nat × Val t)) :=
  match c.get_property_mut t with
  | .ok p =>
    match p.assign v with
    | (p2, tr) => some (c.insert t ⟨t, p2⟩, tr)
  | .error .PropertyNotFound => some (c.insert t ⟨t, Property.new v⟩, [])
  | .error .PropertyTypeMismatch => none

/-- Mirror of `PropertyCollection::contains` (property_collection.rs lines 156-165). -/
def contains (c : PropertyCollection Ty Val) (t : Ty) : Bool :=
  match c.get_property t with
  | .ok p => p.get.isSome
  | .error _ => false

/-- Mirror of `PropertyCollection::subscribe` (property_collection.rs lines 200-225):
if the slot resolves, push the callback onto it; on `PropertyNotFound`,
perform the early subscription (empty property, subscribe, insert); on any
other error panic (`none`).  No callback is ever invoked here. -/
def subscribe (c : PropertyCollection Ty Val) (t : Ty) (cb : Nat) :
    Option (PropertyCollection Ty Val) :=
  match c.get_property_mut t with
  | .ok p => some (c.insert t ⟨t, p.subscribe cb⟩)
  | .error .PropertyNotFound =>
    some (c.insert t ⟨t, Property.empty.subscribe cb⟩)
  | .error .PropertyTypeMismatch => none

end PropertyCollection

/-- One public operation of the store API. -/
inductive Op (Ty : Type) (Val : Ty → Type) where
  | assign (t : Ty) (v : Val t)
  | subscribe (t : Ty) (cb : Nat)
  | get (t : Ty)
  | contains (t : Ty)

/-- A callback-invocation event of the whole store: the type tag, the
callback identifier and the argument it received. -/
def Event (Ty : Type) (Val : Ty → Type) : Type :=
  Σ t : Ty, Nat × Val t

namespace PropertyCollection

variable {Ty : Type} [DecidableEq Ty] {Val : Ty → Type}

/-- Execute one public operation: the resulting state and the callback
invocations the operation performed.  `get` and `contains` are read-only and
invoke nothing; `subscribe` mutates but invokes nothing (subscription is
never retroactive); a panic (`none`) aborts before mutating. -/
def stepT (c : PropertyCollection Ty Val) :
    Op Ty Val → PropertyCollection Ty Val × List (Event Ty Val)
  | .assign t v =>
    match c.assign t v with
    | some (c2, tr) => (c2, tr.map fun e => ⟨t, e⟩)
    | none => (c, [])
  | .subscribe t cb =>
    match c.subscribe t cb with
    | some c2 => (c2, [])
    | none => (c, [])
  | .get _ => (c, [])
  | .contains _ => (c, [])

/-- The state after one public operation. -/
def step (c : PropertyCollection Ty Val) (op : Op Ty Val) :
    PropertyCollection Ty Val :=
  (c.stepT op).1

/-- The state after a sequence of public operations. -/
def run : PropertyCollection Ty Val → List (Op Ty Val) →
    PropertyCollection Ty Val
  | c, [] => c
  | c, op :: ops => run (c.step op) ops

/-- All callback invocations performed by a sequence of public operations,
in order. -/
def traceOf : PropertyCollection Ty Val → List (Op Ty Val) →
    List (Event Ty Val)
  | _, [] => []
  | c, op :: ops => (c.stepT op).2 ++ traceOf (c.step op) ops

/-- Store states reachable from `PropertyCollection::new` by public
operations. -/
inductive Reachable : PropertyCollection Ty Val → Prop where
  | new : Reachable (new Ty Val)
  | step (c : PropertyCollection Ty Val) (op : Op Ty Val) :
      Reachable c → Reachable (c.step op)

/-- The internal consistency invariant: every erased slot stored under a type
identity has exactly that dynamic type. -/
def WF (c : PropertyCollection Ty Val) : Prop :=
  ∀ t b, c.properties t = some b → b.1 = t

end PropertyCollection

/-- A small concrete universe of Rust types for concrete evaluations:
`i32`, `&'static i32` (a distinct nominal type; its value is modelled by the
referenced integer), `String`, and a newtype `MyInt(i32)`. -/
inductive RTy where
  | i32
  | refI32
  | str
  | myInt
deriving DecidableEq

/-- Values carried by each concrete Rust type. -/
@[reducible] def RVal : RTy → Type
  | .i32 => Int
  | .refI32 => Int
  | .str => String
  | .myInt => Int

/-- A store holding one `i32` property with value `42`. -/
def storeI32 : PropertyCollection RTy RVal :=
  PropertyCollection.run (PropertyCollection.new RTy RVal)
    [Op.assign RTy.i32 (42 : Int)]

/-- The store `storeI32` after additionally assigning `&99 : &i32`. -/
def storeI32Ref : PropertyCollection RTy RVal :=
  PropertyCollection.run storeI32 [Op.assign RTy.refI32 (99 : Int)]

/-- A store with a single early subscription (callback `0`) on `i32`. -/
def storeSub : PropertyCollection RTy RVal :=
  PropertyCollection.run (PropertyCollection.new RTy RVal)
    [Op.subscribe RTy.i32 0]

/-- A store with two early subscriptions on `i32`: callback `1` registered
before callback `2`. -/
def storeSub2 : PropertyCollection RTy RVal :=
  PropertyCollection.run (PropertyCollection.new RTy RVal)
    [Op.subscribe RTy.i32 1, Op.subscribe RTy.i32 2]

/-- The operation sequence of the spec scenario: subscribe once to `i32`,
then assign `11` three times. -/
def subThenThreeAssigns : List (Op RTy RVal) :=
  [Op.subscribe RTy.i32 0, Op.assign RTy.i32 (11 : Int),
   Op.assign RTy.i32 (11 : Int), Op.assign RTy.i32 (11 : Int)]

section Lemmas

variable {Ty : Type} [DecidableEq Ty] {Val : Ty → Type}

theorem Property.assign_eq {α : Type} (p : Property α) (v : α) :
    p.assign v = (⟨some v, p.subscriptions⟩,
      p.subscriptions.map fun cb => (cb, v)) :=
  rfl

theorem AnyProp.downcast_mk (t : Ty) (p : Property (Val t)) :
    AnyProp.downcast (⟨t, p⟩ : AnyProp Val) t = some p := by
  unfold AnyProp.downcast
  rw [dif_pos rfl]
  rfl

theorem AnyProp.downcast_of_ne (b : AnyProp Val) (t : Ty) (h : b.1 ≠ t) :
    AnyProp.downcast b t = none := by
  unfold AnyProp.downcast
  rw [dif_neg h]

theorem PropertyCollection.properties_insert_self
    (c : PropertyCollection Ty Val) (t : Ty) (b : AnyProp Val) :
    (c.insert t b).properties t = some b := by
  simp [PropertyCollection.insert]

theorem PropertyCollection.properties_insert_ne
    (c : PropertyCollection Ty Val) (t k : Ty) (b : AnyProp Val)
    (h : k ≠ t) : (c.insert t b).properties k = c.properties k := by
  simp [PropertyCollection.insert, h]

theorem PropertyCollection.get_property_mut_eq
    (c : PropertyCollection Ty Val) (t : Ty) :
    c.get_property_mut t = c.get_property t :=
  rfl

theorem PropertyCollection.get_property_of_none
    (c : PropertyCollection Ty Val) (t : Ty) (h : c.properties t = none) :
    c.get_property t = .error .PropertyNotFound := by
  simp [PropertyCollection.get_property, h]

theorem PropertyCollection.get_property_of_mk
    (c : PropertyCollection Ty Val) (t : Ty) (p : Property (Val t))
    (h : c.properties t = some ⟨t, p⟩) :
    c.get_property t = .ok p := by
  simp [PropertyCollection.get_property, h, AnyProp.downcast_mk]

theorem PropertyCollection.get_property_of_mismatch
    (c : PropertyCollection Ty Val) (t : Ty) (b : AnyProp Val)
    (h : c.properties t = some b) (hne : b.1 ≠ t) :
    c.get_property t = .error .PropertyTypeMismatch := by
  simp [PropertyCollection.get_property, h, AnyProp.downcast_of_ne b t hne]

theorem PropertyCollection.get_property_congr
    (c₁ c₂ : PropertyCollection Ty Val) (t : Ty)
    (h : c₁.properties t = c₂.properties t) :
    c₁.get_property t = c₂.get_property t := by
  unfold PropertyCollection.get_property
  rw [h]

theorem PropertyCollection.get_congr
    (c₁ c₂ : PropertyCollection Ty Val) (t : Ty)
    (h : c₁.properties t = c₂.properties t) :
    c₁.get t = c₂.get t := by
  unfold PropertyCollection.get
  rw [PropertyCollection.get_property_congr c₁ c₂ t h]

theorem PropertyCollection.contains_congr
    (c₁ c₂ : PropertyCollection Ty Val) (t : Ty)
    (h : c₁.properties t = c₂.properties t) :
    c₁.contains t = c₂.contains t := by
  unfold PropertyCollection.contains
  rw [PropertyCollection.get_property_congr c₁ c₂ t h]

theorem PropertyCollection.assign_of_none
    (c : PropertyCollection Ty Val) (t : Ty) (v : Val t)
    (h : c.properties t = none) :
    c.assign t v = some (c.insert t ⟨t, Property.new v⟩, []) := by
  simp [PropertyCollection.assign, PropertyCollection.get_property_mut_eq,
    PropertyCollection.get_property_of_none c t h]

theorem PropertyCollection.assign_of_mk
    (c : PropertyCollection Ty Val) (t : Ty) (p : Property (Val t))
    (v : Val t) (h : c.properties t = some ⟨t, p⟩) :
    c.assign t v = some (c.insert t ⟨t, ⟨some v, p.subscriptions⟩⟩,
      p.subscriptions.map fun cb => (cb, v)) := by
  simp [PropertyCollection.assign, PropertyCollection.get_property_mut_eq,
    PropertyCollection.get_property_of_mk c t p h, Property.assign_eq]

theorem PropertyCollection.assign_of_mismatch
    (c : PropertyCollection Ty Val) (t : Ty) (b : AnyProp Val) (v : Val t)
    (h : c.properties t = some b) (hne : b.1 ≠ t) :
    c.assign t v = none := by
  simp [PropertyCollection.assign, PropertyCollection.get_property_mut_eq,
    PropertyCollection.get_property_of_mismatch c t b h hne]

theorem PropertyCollection.subscribe_of_none
    (c : PropertyCollection Ty Val) (t : Ty) (cb : Nat)
    (h : c.properties t = none) :
    c.subscribe t cb = some (c.insert t ⟨t, Property.empty.subscribe cb⟩) := by
  simp [PropertyCollection.subscribe, PropertyCollection.get_property_mut_eq,
    PropertyCollection.get_property_of_none c t h]

theorem PropertyCollection.subscribe_of_mk
    (c : PropertyCollection Ty Val) (t : Ty) (p : Property (Val t)) (cb : Nat)
    (h : c.properties t = some ⟨t, p⟩) :
    c.subscribe t cb = some (c.insert t ⟨t, p.subscribe cb⟩) := by
  simp [PropertyCollection.subscribe, PropertyCollection.get_property_mut_eq,
    PropertyCollection.get_property_of_mk c t p h]

theorem PropertyCollection.subscribe_of_mismatch
    (c : PropertyCollection Ty Val) (t : Ty) (b : AnyProp Val) (cb : Nat)
    (h : c.properties t = some b) (hne : b.1 ≠ t) :
    c.subscribe t cb = none := by
  simp [PropertyCollection.subscribe, PropertyCollection.get_property_mut_eq,
    PropertyCollection.get_property_of_mismatch c t b h hne]

theorem PropertyCollection.get_of_value
    (c : PropertyCollection Ty Val) (t : Ty) (p : Property (Val t))
    (v : Val t) (hp : c.properties t = some ⟨t, p⟩) (hv : p.value = some v) :
    c.get t = .ok v := by
  simp [PropertyCollection.get, PropertyCollection.get_property_of_mk c t p hp,
    Property.get, hv]

theorem PropertyCollection.get_of_empty
    (c : PropertyCollection Ty Val) (t : Ty) (p : Property (Val t))
    (hp : c.properties t = some ⟨t, p⟩) (hv : p.value = none) :
    c.get t = .error .PropertyNotFound := by
  simp [PropertyCollection.get, PropertyCollection.get_property_of_mk c t p hp,
    Property.get, hv]

theorem PropertyCollection.get_of_none
    (c : PropertyCollection Ty Val) (t : Ty) (h : c.properties t = none) :
    c.get t = .error .PropertyNotFound := by
  simp [PropertyCollection.get, PropertyCollection.get_property_of_none c t h]

theorem PropertyCollection.get_of_mismatch
    (c : PropertyCollection Ty Val) (t : Ty) (b : AnyProp Val)
    (h : c.properties t = some b) (hne : b.1 ≠ t) :
    c.get t = .error .PropertyTypeMismatch := by
  simp [PropertyCollection.get,
    PropertyCollection.get_property_of_mismatch c t b h hne]

theorem PropertyCollection.contains_of_mk
    (c : PropertyCollection Ty Val) (t : Ty) (p : Property (Val t))
    (hp : c.properties t = some ⟨t, p⟩) :
    c.contains t = (p.value).isSome := by
  simp [PropertyCollection.contains,
    PropertyCollection.get_property_of_mk c t p hp, Property.get]

theorem PropertyCollection.contains_of_none
    (c : PropertyCollection Ty Val) (t : Ty) (h : c.properties t = none) :
    c.contains t = false := by
  simp [PropertyCollection.contains, PropertyCollection.get_property_of_none c t h]

theorem PropertyCollection.contains_of_mismatch
    (c : PropertyCollection Ty Val) (t : Ty) (b : AnyProp Val)
    (h : c.properties t = some b) (hne : b.1 ≠ t) :
    c.contains t = false := by
  simp [PropertyCollection.contains,
    PropertyCollection.get_property_of_mismatch c t b h hne]

theorem PropertyCollection.contains_true_iff
    (c : PropertyCollection Ty Val) (t : Ty) :
    c.contains t = true ↔
      ∃ p : Property (Val t), c.properties t = some ⟨t, p⟩ ∧
        (p.value).isSome = true := by
  constructor
  · intro h
    rcases hp : c.properties t with _ | ⟨t1, q⟩
    · rw [PropertyCollection.contains_of_none c t hp] at h
      exact absurd h (by simp)
    · by_cases ht : t1 = t
      · subst ht
        refine ⟨q, rfl, ?_⟩
        rw [PropertyCollection.contains_of_mk c t1 q hp] at h
        exact h
      · rw [PropertyCollection.contains_of_mismatch c t ⟨t1, q⟩ hp ht] at h
        exact absurd h (by simp)
  · rintro ⟨p, hp, hv⟩
    rw [PropertyCollection.contains_of_mk c t p hp]
    exact hv

theorem PropertyCollection.assign_some_inv
    (c c₂ : PropertyCollection Ty Val) (t : Ty) (v : Val t)
    (tr : List (Nat × Val t)) (ha : c.assign t v = some (c₂, tr)) :
    (∀ k, k ≠ t → c₂.properties k = c.properties k) ∧
      ∃ p₂ : Property (Val t), c₂.properties t = some ⟨t, p₂⟩ ∧
        p₂.value = some v := by
  rcases hp : c.properties t with _ | ⟨t1, q⟩
  · rw [PropertyCollection.assign_of_none c t v hp] at ha
    simp only [Option.some.injEq, Prod.mk.injEq] at ha
    obtain ⟨h1, -⟩ := ha
    subst h1
    refine ⟨fun k hk => PropertyCollection.properties_insert_ne c t k _ hk, ?_⟩
    exact ⟨Property.new v, PropertyCollection.properties_insert_self c t _, rfl⟩
  · by_cases ht : t1 = t
    · subst ht
      rw [PropertyCollection.assign_of_mk c t1 q v hp] at ha
      simp only [Option.some.injEq, Prod.mk.injEq] at ha
      obtain ⟨h1, -⟩ := ha
      subst h1
      refine ⟨fun k hk => PropertyCollection.properties_insert_ne c t1 k _ hk, ?_⟩
      exact ⟨⟨some v, q.subscriptions⟩,
        PropertyCollection.properties_insert_self c t1 _, rfl⟩
    · rw [PropertyCollection.assign_of_mismatch c t ⟨t1, q⟩ v hp ht] at ha
      exact absurd ha (by simp)

theorem PropertyCollection.subscribe_some_inv
    (c c₂ : PropertyCollection Ty Val) (t : Ty) (cb : Nat)
    (hs : c.subscribe t cb = some c₂) :
    (∀ k, k ≠ t → c₂.properties k = c.properties k) ∧
      ∃ p₂ : Property (Val t), c₂.properties t = some ⟨t, p₂⟩ := by
  rcases hp : c.properties t with _ | ⟨t1, q⟩
  · rw [PropertyCollection.subscribe_of_none c t cb hp] at hs
    simp only [Option.some.injEq] at hs
    subst hs
    refine ⟨fun k hk => PropertyCollection.properties_insert_ne c t k _ hk, ?_⟩
    exact ⟨Property.empty.subscribe cb, PropertyCollection.properties_insert_self c t _⟩
  · by_cases ht : t1 = t
    · subst ht
      rw [PropertyCollection.subscribe_of_mk c t1 q cb hp] at hs
      simp only [Option.some.injEq] at hs
      subst hs
      refine ⟨fun k hk => PropertyCollection.properties_insert_ne c t1 k _ hk, ?_⟩
      exact ⟨q.subscribe cb, PropertyCollection.properties_insert_self c t1 _⟩
    · rw [PropertyCollection.subscribe_of_mismatch c t ⟨t1, q⟩ cb hp ht] at hs
      exact absurd hs (by simp)

theorem PropertyCollection.step_assign_some
    (c c₂ : PropertyCollection Ty Val) (t : Ty) (v : Val t)
    (tr : List (Nat × Val t)) (ha : c.assign t v = some (c₂, tr)) :
    c.step (.assign t v) = c₂ := by
  simp [PropertyCollection.step, PropertyCollection.stepT, ha]

theorem PropertyCollection.step_assign_none
    (c : PropertyCollection Ty Val) (t : Ty) (v : Val t)
    (ha : c.assign t v = none) : c.step (.assign t v) = c := by
  simp [PropertyCollection.step, PropertyCollection.stepT, ha]

theorem PropertyCollection.step_subscribe_some
    (c c₂ : PropertyCollection Ty Val) (t : Ty) (cb : Nat)
    (hs : c.subscribe t cb = some c₂) : c.step (.subscribe t cb) = c₂ := by
  simp [PropertyCollection.step, PropertyCollection.stepT, hs]

theorem PropertyCollection.step_subscribe_none
    (c : PropertyCollection Ty Val) (t : Ty) (cb : Nat)
    (hs : c.subscribe t cb = none) : c.step (.subscribe t cb) = c := by
  simp [PropertyCollection.step, PropertyCollection.stepT, hs]

theorem PropertyCollection.step_get_eq
    (c : PropertyCollection Ty Val) (t : Ty) : c.step (.get t) = c :=
  rfl

theorem PropertyCollection.step_contains_eq
    (c : PropertyCollection Ty Val) (t : Ty) : c.step (.contains t) = c :=
  rfl

theorem PropertyCollection.step_properties_isSome
    (c : PropertyCollection Ty Val) (op : Op Ty Val) (k : Ty)
    (h : (c.properties k).isSome = true) :
    ((c.step op).properties k).isSome = true := by
  cases op with
  | assign t v =>
    rcases ha : c.assign t v with _ | ⟨c₂, tr⟩
    · rw [PropertyCollection.step_assign_none c t v ha]
      exact h
    · rw [PropertyCollection.step_assign_some c c₂ t v tr ha]
      obtain ⟨hne, p₂, hp₂, -⟩ := PropertyCollection.assign_some_inv c c₂ t v tr ha
      by_cases hk : k = t
      · subst hk
        rw [hp₂]
        rfl
      · rw [hne k hk]
        exact h
  | subscribe t cb =>
    rcases hs : c.subscribe t cb with _ | c₂
    · rw [PropertyCollection.step_subscribe_none c t cb hs]
      exact h
    · rw [PropertyCollection.step_subscribe_some c c₂ t cb hs]
      obtain ⟨hne, p₂, hp₂⟩ := PropertyCollection.subscribe_some_inv c c₂ t cb hs
      by_cases hk : k = t
      · subst hk
        rw [hp₂]
        rfl
      · rw [hne k hk]
        exact h
  | get t => exact h
  | contains t => exact h

theorem PropertyCollection.step_contains_true
    (c : PropertyCollection Ty Val) (op : Op Ty Val) (k : Ty)
    (h : c.contains k = true) : (c.step op).contains k = true := by
  obtain ⟨p, hp, hv⟩ := (PropertyCollection.contains_true_iff c k).mp h
  cases op with
  | assign t v =>
    by_cases hk : t = k
    · subst hk
      rw [PropertyCollection.step_assign_some c _ t v _
        (PropertyCollection.assign_of_mk c t p v hp)]
      refine (PropertyCollection.contains_true_iff _ t).mpr ?_
      exact ⟨⟨some v, p.subscriptions⟩,
        PropertyCollection.properties_insert_self c t _, rfl⟩
    · rcases ha : c.assign t v with _ | ⟨c₂, tr⟩
      · rw [PropertyCollection.step_assign_none c t v ha]
        exact h
      · rw [PropertyCollection.step_assign_some c c₂ t v tr ha]
        obtain ⟨hne, -, -⟩ := PropertyCollection.assign_some_inv c c₂ t v tr ha
        refine (PropertyCollection.contains_true_iff c₂ k).mpr ?_
        refine ⟨p, ?_, hv⟩
        rw [hne k (fun hkt => hk hkt.symm)]
        exact hp
  | subscribe t cb =>
    by_cases hk : t = k
    · subst hk
      rw [PropertyCollection.step_subscribe_some c _ t cb
        (PropertyCollection.subscribe_of_mk c t p cb hp)]
      refine (PropertyCollection.contains_true_iff _ t).mpr ?_
      refine ⟨p.subscribe cb, PropertyCollection.properties_insert_self c t _, ?_⟩
      exact hv
    · rcases hs : c.subscribe t cb with _ | c₂
      · rw [PropertyCollection.step_subscribe_none c t cb hs]
        exact h
      · rw [PropertyCollection.step_subscribe_some c c₂ t cb hs]
        obtain ⟨hne, -⟩ := PropertyCollection.subscribe_some_inv c c₂ t cb hs
        refine (PropertyCollection.contains_true_iff c₂ k).mpr ?_
        refine ⟨p, ?_, hv⟩
        rw [hne k (fun hkt => hk hkt.symm)]
        exact hp
  | get t => exact h
  | contains t => exact h

theorem PropertyCollection.run_properties_isSome
    (ops : List (Op Ty Val)) (c : PropertyCollection Ty Val) (k : Ty)
    (h : (c.properties k).isSome = true) :
    ((PropertyCollection.run c ops).properties k).isSome = true := by
  induction ops generalizing c with
  | nil => exact h
  | cons op ops ih =>
    exact ih (c.step op) (PropertyCollection.step_properties_isSome c op k h)

theorem PropertyCollection.run_contains_true
    (ops : List (Op Ty Val)) (c : PropertyCollection Ty Val) (k : Ty)
    (h : c.contains k = true) :
    (PropertyCollection.run c ops).contains k = true := by
  induction ops generalizing c with
  | nil => exact h
  | cons op ops ih =>
    exact ih (c.step op) (PropertyCollection.step_contains_true c op k h)

omit [DecidableEq Ty] in
theorem PropertyCollection.wf_new : (PropertyCollection.new Ty Val).WF := by
  intro t b h
  exact absurd h (by simp [PropertyCollection.new])

theorem PropertyCollection.wf_insert
    (c : PropertyCollection Ty Val) (t : Ty) (p : Property (Val t))
    (hc : c.WF) : (c.insert t ⟨t, p⟩).WF := by
  intro k b h
  by_cases hk : k = t
  · subst hk
    rw [PropertyCollection.properties_insert_self] at h
    cases h
    rfl
  · rw [PropertyCollection.properties_insert_ne c t k _ hk] at h
    exact hc k b h

theorem PropertyCollection.wf_step
    (c : PropertyCollection Ty Val) (op : Op Ty Val) (hc : c.WF) :
    (c.step op).WF := by
  cases op with
  | assign t v =>
    rcases hp : c.properties t with _ | ⟨t1, q⟩
    · rw [PropertyCollection.step_assign_some c _ t v _
        (PropertyCollection.assign_of_none c t v hp)]
      exact PropertyCollection.wf_insert c t _ hc
    · by_cases ht : t1 = t
      · subst ht
        rw [PropertyCollection.step_assign_some c _ t1 v _
          (PropertyCollection.assign_of_mk c t1 q v hp)]
        exact PropertyCollection.wf_insert c t1 _ hc
      · rw [PropertyCollection.step_assign_none c t v
          (PropertyCollection.assign_of_mismatch c t ⟨t1, q⟩ v hp ht)]
        exact hc
  | subscribe t cb =>
    rcases hp : c.properties t with _ | ⟨t1, q⟩
    · rw [PropertyCollection.step_subscribe_some c _ t cb
        (PropertyCollection.subscribe_of_none c t cb hp)]
      exact PropertyCollection.wf_insert c t _ hc
    · by_cases ht : t1 = t
      · subst ht
        rw [PropertyCollection.step_subscribe_some c _ t1 cb
          (PropertyCollection.subscribe_of_mk c t1 q cb hp)]
        exact PropertyCollection.wf_insert c t1 _ hc
      · rw [PropertyCollection.step_subscribe_none c t cb
          (PropertyCollection.subscribe_of_mismatch c t ⟨t1, q⟩ cb hp ht)]
        exact hc
  | get t => exact hc
  | contains t => exact hc

theorem PropertyCollection.reachable_wf
    (c : PropertyCollection Ty Val) (hc : PropertyCollection.Reachable c) :
    c.WF := by
  induction hc with
  | new => exact PropertyCollection.wf_new
  | step c op _ ih => exact PropertyCollection.wf_step c op ih

theorem PropertyCollection.wf_get_property_ne_mismatch
    (c : PropertyCollection Ty Val) (t : Ty) (hc : c.WF) :
    c.get_property t ≠ .error .PropertyTypeMismatch := by
  rcases hp : c.properties t with _ | ⟨t1, q⟩
  · rw [PropertyCollection.get_property_of_none c t hp]
    simp
  · have ht : t1 = t := hc t ⟨t1, q⟩ hp
    subst ht
    rw [PropertyCollection.get_property_of_mk c t1 q hp]
    simp

theorem PropertyCollection.wf_assign_isSome
    (c : PropertyCollection Ty Val) (t : Ty) (v : Val t) (hc : c.WF) :
    (c.assign t v).isSome = true := by
  rcases hp : c.properties t with _ | ⟨t1, q⟩
  · rw [PropertyCollection.assign_of_none c t v hp]
    rfl
  · have ht : t1 = t := hc t ⟨t1, q⟩ hp
    subst ht
    rw [PropertyCollection.assign_of_mk c t1 q v hp]
    rfl

theorem PropertyCollection.wf_subscribe_isSome
    (c : PropertyCollection Ty Val) (t : Ty) (cb : Nat) (hc : c.WF) :
    (c.subscribe t cb).isSome = true := by
  rcases hp : c.properties t with _ | ⟨t1, q⟩
  · rw [PropertyCollection.subscribe_of_none c t cb hp]
    rfl
  · have ht : t1 = t := hc t ⟨t1, q⟩ hp
    subst ht
    rw [PropertyCollection.subscribe_of_mk c t1 q cb hp]
    rfl

end Lemmas

section Claims

variable {Ty : Type} [DecidableEq Ty] {Val : Ty → Type}

/-- Claim C1: for every store state and type `T`, `get` returns `Ok` with the
slot's current value when a slot for `T` exists under its own identity and
holds a value; it fails with `PropertyNotFound` when the slot is empty or no
slot exists; and it fails with `PropertyTypeMismatch` when a slot exists
under the identity of `T` but fails to downcast to `Property<T>`. -/
theorem get_spec (c : PropertyCollection Ty Val) (t : Ty) :
    (∀ (p : Property (Val t)) (v : Val t),
        c.properties t = some ⟨t, p⟩ → p.value = some v → c.get t = .ok v)
    ∧ (∀ p : Property (Val t), c.properties t = some ⟨t, p⟩ →
        p.value = none → c.get t = .error .PropertyNotFound)
    ∧ (c.properties t = none → c.get t = .error .PropertyNotFound)
    ∧ (∀ b : AnyProp Val, c.properties t = some b → b.1 ≠ t →
        c.get t = .error .PropertyTypeMismatch) :=
  ⟨fun p v hp hv => PropertyCollection.get_of_value c t p v hp hv,
   fun p hp hv => PropertyCollection.get_of_empty c t p hp hv,
   fun h => PropertyCollection.get_of_none c t h,
   fun b hb hne => PropertyCollection.get_of_mismatch c t b hb hne⟩

/-- Witness for C1: in `storeI32`, `get::<i32>()` is `Ok(42)` and
`get::<String>()` is `Err(PropertyNotFound)`. -/
theorem get_spec_witness :
    storeI32.get RTy.i32 = .ok 42
    ∧ storeI32.get RTy.str = .error .PropertyNotFound :=
  ⟨(get_spec storeI32 RTy.i32).1 (Property.new (42 : Int)) 42 rfl rfl,
   (get_spec storeI32 RTy.str).2.2.1 rfl⟩

/-- Claim C2: assigning a value of type `T1` leaves the result of
`get::<T2>()` unchanged for every `T2 ≠ T1` (type isolation). -/
theorem assign_type_isolation (c c₂ : PropertyCollection Ty Val)
    (t1 t2 : Ty) (hne : t1 ≠ t2) (v : Val t1) (tr : List (Nat × Val t1))
    (ha : c.assign t1 v = some (c₂, tr)) :
    c₂.get t2 = c.get t2 := by
  obtain ⟨hkeep, -⟩ := PropertyCollection.assign_some_inv c c₂ t1 v tr ha
  exact PropertyCollection.get_congr c₂ c t2 (hkeep t2 fun h => hne h.symm)

/-- Witness for C2: assigning `&99 : &i32` into `storeI32` leaves
`get::<i32>()` unchanged. -/
theorem assign_type_isolation_witness :
    storeI32Ref.get RTy.i32 = storeI32.get RTy.i32 :=
  assign_type_isolation storeI32 storeI32Ref RTy.refI32 RTy.i32
    (by decide) (99 : Int) [] rfl

/-- Claim C3: after `assign(v1); assign(v2)` on the same type,
`get::<T>()` returns `v2` (last-write-wins, no history retained). -/
theorem assign_last_write_wins (c c₁ : PropertyCollection Ty Val) (t : Ty)
    (v1 v2 : Val t) (tr1 : List (Nat × Val t))
    (h1 : c.assign t v1 = some (c₁, tr1)) :
    ∃ c₂ tr2, c₁.assign t v2 = some (c₂, tr2) ∧ c₂.get t = .ok v2 := by
  obtain ⟨-, p1, hp1, -⟩ := PropertyCollection.assign_some_inv c c₁ t v1 tr1 h1
  refine ⟨_, _, PropertyCollection.assign_of_mk c₁ t p1 v2 hp1, ?_⟩
  exact PropertyCollection.get_of_value _ t ⟨some v2, p1.subscriptions⟩ v2
    (PropertyCollection.properties_insert_self c₁ t _) rfl

/-- Witness for C3: `assign(42); assign(11); get::<i32>()` yields `11`. -/
theorem assign_last_write_wins_witness :
    ∃ c₂ tr2, storeI32.assign RTy.i32 (11 : Int) = some (c₂, tr2)
      ∧ c₂.get RTy.i32 = .ok 11 :=
  assign_last_write_wins (PropertyCollection.new RTy RVal) storeI32
    RTy.i32 42 11 [] rfl

/-- Claim C4: `subscribe::<T>(cb)` on a store with no slot for `T` invokes no
callback (and no `subscribe` call ever invokes a callback, even when a value
is already present); `contains::<T>()` is false after the subscription; and
the first subsequent `assign::<T>(v)` invokes `cb` exactly once with `v`,
after which `contains` is true. -/
theorem early_subscription (c : PropertyCollection Ty Val) (t : Ty)
    (cb : Nat) (v : Val t) (h0 : c.properties t = none) :
    ∃ c₁, c.subscribe t cb = some c₁
      ∧ (∀ (d : PropertyCollection Ty Val) (u : Ty) (k : Nat),
          (d.stepT (.subscribe u k)).2 = [])
      ∧ c₁.contains t = false
      ∧ ∃ c₂, c₁.assign t v = some (c₂, [(cb, v)])
        ∧ c₂.contains t = true ∧ c₂.get t = .ok v := by
  have hins : (c.insert t ⟨t, Property.empty.subscribe cb⟩).properties t
      = some ⟨t, Property.empty.subscribe cb⟩ :=
    PropertyCollection.properties_insert_self c t _
  refine ⟨c.insert t ⟨t, Property.empty.subscribe cb⟩,
    PropertyCollection.subscribe_of_none c t cb h0, ?_, ?_, ?_⟩
  · intro d u k
    rcases hs : d.subscribe u k with _ | d₂ <;>
      simp [PropertyCollection.stepT, hs]
  · rw [PropertyCollection.contains_of_mk _ t _ hins]
    rfl
  · have hins2 : ((c.insert t ⟨t, Property.empty.subscribe cb⟩).insert t
        ⟨t, ⟨some v, ((Property.empty.subscribe cb : Property (Val t))).subscriptions⟩⟩).properties t
        = some ⟨t, ⟨some v, ((Property.empty.subscribe cb : Property (Val t))).subscriptions⟩⟩ :=
      PropertyCollection.properties_insert_self _ t _
    refine ⟨_, PropertyCollection.assign_of_mk _ t
      (Property.empty.subscribe cb) v hins, ?_, ?_⟩
    · rw [PropertyCollection.contains_of_mk _ t _ hins2]
      rfl
    · exact PropertyCollection.get_of_value _ t _ v hins2 rfl

/-- Witness for C4: subscribing callback `0` to `i32` on a fresh store fires
nothing, `contains` stays false, and the first `assign(7)` fires `(0, 7)`. -/
theorem early_subscription_witness :
    ∃ c₁, (PropertyCollection.new RTy RVal).subscribe RTy.i32 0 = some c₁
      ∧ c₁.contains RTy.i32 = false
      ∧ ∃ c₂, c₁.assign RTy.i32 (7 : Int) = some (c₂, [(0, (7 : Int))])
        ∧ c₂.contains RTy.i32 = true := by
  obtain ⟨c₁, h1, -, h3, c₂, h4, h5, -⟩ :=
    early_subscription (PropertyCollection.new RTy RVal) RTy.i32 0 (7 : Int) rfl
  exact ⟨c₁, h1, h3, c₂, h4, h5⟩

/-- Claim C5: a write to an existing slot replaces the stored value and then
invokes every registered subscriber in registration order, each receiving the
same newly stored final value. -/
theorem assign_notification_order (c : PropertyCollection Ty Val) (t : Ty)
    (p : Property (Val t)) (v : Val t) (hp : c.properties t = some ⟨t, p⟩) :
    ∃ c₂, c.assign t v = some (c₂, p.subscriptions.map fun cb => (cb, v))
      ∧ c₂.properties t = some ⟨t, ⟨some v, p.subscriptions⟩⟩ :=
  ⟨_, PropertyCollection.assign_of_mk c t p v hp,
   PropertyCollection.properties_insert_self c t _⟩

/-- Witness for C5: with subscribers `1` then `2`, a single assign of `5`
invokes `1` before `2`, both with `5`, and stores `5`. -/
theorem assign_notification_order_witness :
    ∃ c₂, storeSub2.assign RTy.i32 (5 : Int)
        = some (c₂, [(1, (5 : Int)), (2, 5)])
      ∧ c₂.properties RTy.i32 = some ⟨RTy.i32, ⟨some 5, [1, 2]⟩⟩ := by
  obtain ⟨c₂, h1, h2⟩ :=
    assign_notification_order storeSub2 RTy.i32 ⟨none, [1, 2]⟩ (5 : Int) rfl
  exact ⟨c₂, h1, h2⟩

/-- Claim C6: notification is per-write, not per-change: each `assign` call
on a slot invokes each registered subscriber exactly once (as many times as
it is registered), regardless of the assigned value. -/
theorem assign_per_write_notification (c : PropertyCollection Ty Val)
    (t : Ty) (p : Property (Val t)) (v : Val t)
    (hp : c.properties t = some ⟨t, p⟩) :
    ∃ c₂ tr, c.assign t v = some (c₂, tr)
      ∧ tr.length = p.subscriptions.length
      ∧ ∀ cb : Nat, (tr.filter fun e => e.1 = cb).length
          = (p.subscriptions.filter fun c0 => c0 = cb).length := by
  refine ⟨_, _, PropertyCollection.assign_of_mk c t p v hp, by simp, ?_⟩
  intro cb
  generalize p.subscriptions = l
  induction l with
  | nil => rfl
  | cons a l ih =>
    by_cases h : a = cb
    · simp [h, ih]
    · simp [List.filter_cons, h, ih]

/-- Witness for C6: one subscriber on `i32`, then one assign of `11` fires
one event; three assigns of the same `11` fire three events in total. -/
theorem assign_per_write_notification_witness :
    (∃ c₂ tr, storeSub.assign RTy.i32 (11 : Int) = some (c₂, tr)
      ∧ tr.length = 1)
    ∧ (PropertyCollection.traceOf (PropertyCollection.new RTy RVal)
        subThenThreeAssigns).length = 3 := by
  constructor
  · obtain ⟨c₂, tr, h1, h2, -⟩ :=
      assign_per_write_notification storeSub RTy.i32 ⟨none, [0]⟩ (11 : Int) rfl
    exact ⟨c₂, tr, h1, h2⟩
  · rfl

/-- Claim C7: the slot map is monotone: the first assign or subscribe of a
type adds exactly one entry (the other keys are untouched); and over any
sequence of public operations no slot is ever removed and `contains` never
goes back from true to false. -/
theorem slot_map_monotone (c : PropertyCollection Ty Val) (t : Ty) :
    (∀ v : Val t, c.properties t = none →
        ∃ c₂, c.assign t v = some (c₂, [])
          ∧ (c₂.properties t).isSome = true
          ∧ ∀ k, k ≠ t → c₂.properties k = c.properties k)
    ∧ (∀ cb : Nat, c.properties t = none →
        ∃ c₂, c.subscribe t cb = some c₂
          ∧ (c₂.properties t).isSome = true
          ∧ ∀ k, k ≠ t → c₂.properties k = c.properties k)
    ∧ (∀ ops : List (Op Ty Val), (c.properties t).isSome = true →
        ((PropertyCollection.run c ops).properties t).isSome = true)
    ∧ (∀ ops : List (Op Ty Val), c.contains t = true →
        (PropertyCollection.run c ops).contains t = true) := by
  refine ⟨?_, ?_, ?_, ?_⟩
  · intro v h0
    refine ⟨_, PropertyCollection.assign_of_none c t v h0, ?_, ?_⟩
    · rw [PropertyCollection.properties_insert_self]
      rfl
    · intro k hk
      exact PropertyCollection.properties_insert_ne c t k _ hk
  · intro cb h0
    refine ⟨_, PropertyCollection.subscribe_of_none c t cb h0, ?_, ?_⟩
    · rw [PropertyCollection.properties_insert_self]
      rfl
    · intro k hk
      exact PropertyCollection.properties_insert_ne c t k _ hk
  · intro ops h
    exact PropertyCollection.run_properties_isSome ops c t h
  · intro ops h
    exact PropertyCollection.run_contains_true ops c t h

/-- Witness for C7: the first assign of `i32` on a fresh store creates the
slot, and `contains::<i32>()` stays true across further operations. -/
theorem slot_map_monotone_witness :
    (∃ c₂, (PropertyCollection.new RTy RVal).assign RTy.i32 (3 : Int)
        = some (c₂, []) ∧ (c₂.properties RTy.i32).isSome = true)
    ∧ (PropertyCollection.run storeI32
        [Op.subscribe RTy.str 0, Op.assign RTy.myInt (1 : Int)]).contains
        RTy.i32 = true := by
  constructor
  · obtain ⟨c₂, h1, h2, -⟩ :=
      (slot_map_monotone (PropertyCollection.new RTy RVal) RTy.i32).1
        (3 : Int) rfl
    exact ⟨c₂, h1, h2⟩
  · exact (slot_map_monotone storeI32 RTy.i32).2.2.2
      [Op.subscribe RTy.str 0, Op.assign RTy.myInt (1 : Int)] rfl

/-- Claim C8: in every reachable store state the erased slot stored under a
type identity downcasts to the property of that very type, so resolution
never reports `PropertyTypeMismatch` and the panic branches of `assign` and
`subscribe` are unreachable. -/
theorem reachable_no_type_mismatch (c : PropertyCollection Ty Val)
    (hc : PropertyCollection.Reachable c) :
    (∀ t : Ty, c.get_property t ≠ .error .PropertyTypeMismatch)
    ∧ (∀ (t : Ty) (v : Val t), (c.assign t v).isSome = true)
    ∧ (∀ (t : Ty) (cb : Nat), (c.subscribe t cb).isSome = true) := by
  have hwf := PropertyCollection.reachable_wf c hc
  exact ⟨fun t => PropertyCollection.wf_get_property_ne_mismatch c t hwf,
    fun t v => PropertyCollection.wf_assign_isSome c t v hwf,
    fun t cb => PropertyCollection.wf_subscribe_isSome c t cb hwf⟩

/-- Witness for C8: on the reachable fresh store, `assign` does not panic
and resolution of `String` is not a type mismatch. -/
theorem reachable_no_type_mismatch_witness :
    ((PropertyCollection.new RTy RVal).assign RTy.i32 (42 : Int)).isSome = true
    ∧ (PropertyCollection.new RTy RVal).get_property RTy.str ≠
        .error .PropertyTypeMismatch :=
  ⟨(reachable_no_type_mismatch (PropertyCollection.new RTy RVal)
      PropertyCollection.Reachable.new).2.1 RTy.i32 42,
   (reachable_no_type_mismatch (PropertyCollection.new RTy RVal)
      PropertyCollection.Reachable.new).1 RTy.str⟩

/-- Claim C9: `assign(42: i32)` then `assign(&99: &i32)` populate two
distinct slots: `get::<i32>()` still returns `42` and `get::<&i32>()`
returns `&99` (the reference is modelled by its pointee value). -/
theorem ref_vs_owned_example :
    storeI32.get RTy.i32 = .ok 42
    ∧ storeI32Ref.get RTy.i32 = .ok 42
    ∧ storeI32Ref.get RTy.refI32 = .ok 99 :=
  ⟨rfl, rfl, rfl⟩

/-- Claim C10: `contains::<T>()` is true exactly when `get::<T>()` returns
`Ok`, and it is false whenever `get` returns any error. -/
theorem contains_iff_get_ok (c : PropertyCollection Ty Val) (t : Ty) :
    (c.contains t = true ↔ ∃ v, c.get t = .ok v)
    ∧ ∀ e, c.get t = .error e → c.contains t = false := by
  have hmain : c.contains t = true ↔ ∃ v, c.get t = .ok v := by
    constructor
    · intro h
      obtain ⟨p, hp, hv⟩ := (PropertyCollection.contains_true_iff c t).mp h
      rcases hw : p.value with _ | w
      · rw [hw] at hv
        exact absurd hv (by simp)
      · exact ⟨w, PropertyCollection.get_of_value c t p w hp hw⟩
    · rintro ⟨v, hv⟩
      rcases hp : c.properties t with _ | ⟨t1, q⟩
      · rw [PropertyCollection.get_of_none c t hp] at hv
        exact absurd hv (by simp)
      · by_cases ht : t1 = t
        · subst ht
          rcases hw : q.value with _ | w
          · rw [PropertyCollection.get_of_empty c t1 q hp hw] at hv
            exact absurd hv (by simp)
          · refine (PropertyCollection.contains_true_iff c t1).mpr ⟨q, hp, ?_⟩
            rw [hw]
            rfl
        · rw [PropertyCollection.get_of_mismatch c t ⟨t1, q⟩ hp ht] at hv
          exact absurd hv (by simp)
  refine ⟨hmain, ?_⟩
  intro e he
  cases hb : c.contains t with
  | false => rfl
  | true =>
    obtain ⟨v, hv⟩ := hmain.mp hb
    rw [he] at hv
    exact absurd hv (by simp)

/-- Witness for C10: `contains::<i32>()` is true on `storeI32` because `get`
succeeds, and `contains::<String>()` is false because `get` errors. -/
theorem contains_iff_get_ok_witness :
    storeI32.contains RTy.i32 = true ∧ storeI32.contains RTy.str = false :=
  ⟨(contains_iff_get_ok storeI32 RTy.i32).1.mpr ⟨42, rfl⟩,
   (contains_iff_get_ok storeI32 RTy.str).2 .PropertyNotFound rfl⟩

end Claims

end Dynp
